import Mathlib

/-!
Shallow embedding of the zapier-fastapi error-log service
(src/db.py and src/main.py) and proofs about it.

The store (src/db.py) is a single SQLite table `error_logs` with columns
id (INTEGER PRIMARY KEY AUTOINCREMENT), zap_name (TEXT NOT NULL),
error_message (TEXT NOT NULL), explanation (TEXT), timestamp (DATETIME,
second resolution, DEFAULT CURRENT_TIMESTAMP), status (TEXT DEFAULT
'unresolved'), with UNIQUE(zap_name, error_message, timestamp).
We model a row as a structure, the table as a list of rows together with
the AUTOINCREMENT counter, and timestamps as natural numbers (seconds);
the server-assigned insertion time is passed explicitly as `now`.
-/

/-- A row of the `error_logs` table (src/db.py, CREATE TABLE in init_db). -/
structure Row where
  id : Nat
  zap_name : String
  error_message : String
  explanation : Option String
  timestamp : Nat
  status : String
deriving DecidableEq

/-- The database state: the rows of `error_logs` in insertion order and the
AUTOINCREMENT counter for the next id. -/
structure DB where
  error_logs : List Row
  next_id : Nat
deriving DecidableEq

/-- The state produced by `init_db` on a fresh file: empty table,
AUTOINCREMENT starts at 1. -/
def init_db : DB := ⟨[], 1⟩

/-- The UNIQUE(zap_name, error_message, timestamp) key of a row. -/
def rowKey (r : Row) : String × String × Nat := (r.zap_name, r.error_message, r.timestamp)

/-- `insert_error_log` (src/db.py lines 44-62): INSERT a new row with
server-assigned timestamp `now` and default status unresolved; on an
IntegrityError (violation of the UNIQUE constraint) the exception is caught
and -1 is returned, leaving the table unchanged.  Returns the new state and
the assigned id (or -1). -/
def insert_error_log (db : DB) (zap msg : String) (expl : Option String) (now : Nat) :
    DB × Int :=
  if db.error_logs.any (fun r => r.zap_name == zap && r.error_message == msg && r.timestamp == now) then
    (db, -1)
  else
    (⟨db.error_logs ++ [⟨db.next_id, zap, msg, expl, now, ("unresolved")⟩], db.next_id + 1⟩,
     (db.next_id : Int))

/-- Descending order on timestamps (SQL `ORDER BY timestamp DESC`). -/
def tsGE (a b : Row) : Prop := b.timestamp ≤ a.timestamp

instance : DecidableRel tsGE := fun a b => Nat.decLe b.timestamp a.timestamp

instance : IsTotal Row tsGE := ⟨fun a b => Nat.le_total b.timestamp a.timestamp⟩

instance : IsTrans Row tsGE := ⟨fun _ _ _ h1 h2 => Nat.le_trans h2 h1⟩

/-- `get_all_logs` (src/db.py lines 65-81): SELECT all rows ORDER BY
timestamp DESC LIMIT `limit`. -/
def get_all_logs (db : DB) (limit : Nat) : List Row :=
  (List.insertionSort tsGE db.error_logs).take limit

/-- `get_logs_by_status` (src/db.py lines 113-129): SELECT rows WHERE
status = `s` ORDER BY timestamp DESC (no LIMIT). -/
def get_logs_by_status (db : DB) (s : String) : List Row :=
  List.insertionSort tsGE (db.error_logs.filter (fun r => r.status == s))

/-- The `valid_statuses` list of `update_log_status` (src/db.py line 86). -/
def valid_statuses : List String := [("unresolved"), ("resolved"), ("dismissed")]

/-- `update_log_status` (src/db.py lines 84-101): raise ValueError when
`new_status` is not one of the three enum values; otherwise UPDATE the
status of every row whose id matches and return whether any row matched
(`cursor.rowcount > 0`). -/
def update_log_status (db : DB) (log_id : Nat) (new_status : String) :
    Except String (DB × Bool) :=
  if new_status ∈ valid_statuses then
    Except.ok
      (⟨db.error_logs.map (fun r => if r.id == log_id then { r with status := new_status } else r),
        db.next_id⟩,
       db.error_logs.any (fun r => r.id == log_id))
  else
    Except.error ("Invalid status. Must be one of: [unresolved, resolved, dismissed]")

/-- `clear_all_logs` (src/db.py lines 104-110): DELETE every row, return the
number of deleted rows.  AUTOINCREMENT state is kept. -/
def clear_all_logs (db : DB) : DB × Nat :=
  (⟨[], db.next_id⟩, db.error_logs.length)

/-!  The classifier (src/main.py). -/

/-- `ERROR_EXPLANATIONS` (src/main.py lines 60-66), in the dict's insertion
order (Python dicts iterate in insertion order). -/
def ERROR_EXPLANATIONS : List (String × String) :=
  [(("not found"), ("Resource was renamed or deleted")),
   (("missing required field"), ("Check if field names changed")),
   (("auth expired"), ("Reauthorization needed")),
   (("rate limit"), ("API rate limit reached")),
   (("invalid data type"), ("Check field mappings"))]

/-- Python's `str.lower()` on one character (ASCII range; the patterns and
the test inputs of the spec are ASCII). -/
def charLower (c : Char) : Char :=
  if 65 ≤ c.toNat ∧ c.toNat ≤ 90 then Char.ofNat (c.toNat + 32) else c

/-- Python's `str.lower()`. -/
def strLower (s : String) : String := ⟨s.data.map charLower⟩

/-- Does `p` start the list `h`?
(Used to model the substring test of the `in` operator.) -/
def listStarts : List Char → List Char → Bool
  | [], _ => true
  | _ :: _, [] => false
  | p :: ps, c :: cs => p == c && listStarts ps cs

/-- Python's `pat in hay` for strings, on character lists: `pat` occurs as a
contiguous substring of `hay`. -/
def subOccurs (pat : List Char) : List Char → Bool
  | [] => pat.isEmpty
  | c :: cs => listStarts pat (c :: cs) || subOccurs pat cs

/-- The scanning loop of `explain_error`: first pattern that occurs as a
substring of the (already lowercased) message wins; fall back to the fixed
string when none matches. -/
def explainScan : List (String × String) → String → String
  | [], _ => ("No specific explanation available")
  | (pat, expl) :: rest, low =>
    if subOccurs pat.toList low.toList then expl else explainScan rest low

/-- `explain_error` (src/main.py lines 69-75): lowercase the message, scan
`ERROR_EXPLANATIONS` in order, return the first matching explanation, or the
fixed fallback string. -/
def explain_error (msg : String) : String :=
  explainScan ERROR_EXPLANATIONS (strLower msg)

/-!  The HTTP layer (src/main.py).  Each handler is modelled as a function
from the database state (plus the request data and the server clock `now`)
to the new state and a response. -/

/-- Outcome of a request, as the HTTP layer reports it. -/
inductive ApiResp where
  /-- 201 with the body `{id}`. -/
  | created (id : Int)
  /-- 409 `{"detail": "Duplicate log entry"}`. -/
  | duplicate
  /-- An HTTPException with this status code and detail. -/
  | httpError (statusCode : Nat) (detail : String)
deriving DecidableEq

/-- The HTTP status code of a response. -/
def ApiResp.statusCode : ApiResp → Nat
  | .created _ => 201
  | .duplicate => 409
  | .httpError c _ => c

/-- The JSON body of POST /api/zapier_payload: an arbitrary dict, of which
the handler reads zap_name, error_message and timestamp.  A missing key and
a JSON null both read as `none`. -/
structure ZapierPayload where
  zap_name : Option String
  error_message : Option String
  timestamp : Option String
deriving DecidableEq

/-- Python truthiness test `not x` for an optional string: true for a
missing value and for the empty string. -/
def falsyStr : Option String → Bool
  | none => true
  | some s => s == ("")

/-- `receive_zapier_payload` (src/main.py lines 79-109).  The whole body runs
inside `try: ... except Exception as e: raise HTTPException(500, str(e))`.
When zap_name or error_message is falsy the code raises HTTPException(400,
"Missing zap_name or error_message") inside the `try`; FastAPI's
HTTPException is a subclass of Exception, so that raise is intercepted by
the handler's own `except Exception` clause and re-raised as a 500 whose
detail is `str(e)` ("400: Missing zap_name or error_message").  The
payload's optional timestamp field is read into a local variable and never
used. -/
def receive_zapier_payload (db : DB) (payload : ZapierPayload) (now : Nat) :
    DB × ApiResp :=
  if falsyStr payload.zap_name || falsyStr payload.error_message then
    (db, .httpError 500 ("400: Missing zap_name or error_message"))
  else
    let zap := payload.zap_name.getD ("")
    let msg := payload.error_message.getD ("")
    let ins := insert_error_log db zap msg (some (explain_error msg)) now
    if ins.2 = -1 then (ins.1, .duplicate) else (ins.1, .created ins.2)

/-- The body of POST /api/errors (pydantic model `ErrorLogCreate`,
src/main.py lines 49-52): zap_name and error_message are required strings
(any string, the empty string included), explanation is optional. -/
structure ErrorLogCreate where
  zap_name : String
  error_message : String
  explanation : Option String
deriving DecidableEq

/-- `create_error_log` (src/main.py lines 112-123): explanation defaults to
`explain_error(error_message)` when the supplied one is falsy (None or the
empty string, Python `or`); then insert, mapping the -1 duplicate signal to
a 409. -/
def create_error_log (db : DB) (e : ErrorLogCreate) (now : Nat) : DB × ApiResp :=
  let expl :=
    match e.explanation with
    | some s => if s == ("") then explain_error e.error_message else s
    | none => explain_error e.error_message
  let ins := insert_error_log db e.zap_name e.error_message (some expl) now
  if ins.2 = -1 then (ins.1, .duplicate) else (ins.1, .created ins.2)

/-!  CSV export (src/main.py lines 156-183).  `csv.DictWriter` is created
with `fieldnames=logs[0].keys() if logs else []`; `writeheader()` writes the
field names as one CSV row (for an empty fieldnames list that row has no
columns, so the line is just "\r\n"), then `writerows` writes one row per
record.  The default dialect quotes a field iff it contains a delimiter,
a quote or a line break, doubling quotes, and ends each row with "\r\n";
a None value is written as the empty string. -/

/-- The column names of a row dict, in SELECT order. -/
def ROW_FIELDS : List String :=
  [("id"), ("zap_name"), ("error_message"), ("explanation"), ("timestamp"), ("status")]

/-- CSV field quoting of the default dialect. -/
def csvQuote (s : String) : String :=
  if s.data.any (fun c => c == ',' || c == '"' || c == '\r' || c == '\n') then
    ("\"") ++ s.replace ("\"") ("\"\"") ++ ("\"")
  else s

/-- One CSV row: the quoted fields joined by commas, ended by "\r\n". -/
def csvRowLine (fields : List String) : String :=
  String.intercalate (",") (fields.map csvQuote) ++ ("\r\n")

/-- The values of one record's dict, as csv writes them (None → ""). -/
def rowCsvFields (r : Row) : List String :=
  [toString r.id, r.zap_name, r.error_message, r.explanation.getD (""),
   toString r.timestamp, r.status]

/-- The CSV text produced by `export_logs` for a given record list: header
row from `logs[0].keys() if logs else []`, then one row per record. -/
def renderCsv (logs : List Row) : String :=
  csvRowLine (if logs.isEmpty then [] else ROW_FIELDS) ++
    String.join (logs.map (fun r => csvRowLine (rowCsvFields r)))

/-- GET /api/logs/export with format csv (src/main.py lines 156-183):
fetch the (optionally status-filtered) records and render them as CSV. -/
def export_logs (db : DB) (status : Option String) : String :=
  match status with
  | some s => renderCsv (get_logs_by_status db s)
  | none => renderCsv (get_all_logs db 1000)

/-!  Reachable database states: those produced from a fresh `init_db` state
by any sequence of the store's mutating operations (each of which is what
every HTTP handler ultimately calls). -/

/-- A database state is reachable when it arises from `init_db` by inserts
(at arbitrary server times), status updates and clears. -/
inductive Reachable : DB → Prop where
  | init : Reachable init_db
  | insert (db : DB) (zap msg : String) (expl : Option String) (now : Nat) :
      Reachable db → Reachable (insert_error_log db zap msg expl now).1
  | update (db : DB) (log_id : Nat) (new_status : String) (db' : DB) (b : Bool) :
      Reachable db → update_log_status db log_id new_status = Except.ok (db', b) →
      Reachable db'
  | clear (db : DB) : Reachable db → Reachable (clear_all_logs db).1

theorem listStarts_iff (p h : List Char) : listStarts p h = true ↔ ∃ t, h = p ++ t := by
  induction p generalizing h with
  | nil => simp [listStarts]
  | cons a ps ih =>
    cases h with
    | nil => simp [listStarts]
    | cons c cs =>
      simp only [listStarts, Bool.and_eq_true, beq_iff_eq, ih, List.cons_append, List.cons.injEq]
      constructor
      · rintro ⟨rfl, t, rfl⟩
        exact ⟨t, rfl, rfl⟩
      · rintro ⟨t, rfl, rfl⟩
        exact ⟨rfl, t, rfl⟩

theorem subOccurs_iff (pat hay : List Char) :
    subOccurs pat hay = true ↔ ∃ pre post, hay = pre ++ pat ++ post := by
  induction hay with
  | nil =>
    simp only [subOccurs, List.isEmpty_iff]
    constructor
    · rintro rfl
      exact ⟨[], [], rfl⟩
    · rintro ⟨pre, post, h⟩
      rcases List.append_eq_nil.mp h.symm with ⟨h1, h2⟩
      rcases List.append_eq_nil.mp h1 with ⟨_, h3⟩
      exact h3
  | cons c cs ih =>
    simp only [subOccurs, Bool.or_eq_true, listStarts_iff, ih]
    constructor
    · rintro (⟨t, h⟩ | ⟨pre, post, rfl⟩)
      · exact ⟨[], t, by simp [h]⟩
      · exact ⟨c :: pre, post, rfl⟩
    · rintro ⟨pre, post, h⟩
      cases pre with
      | nil =>
        left
        exact ⟨post, by simpa using h⟩
      | cons a pre2 =>
        right
        have h2 : cs = pre2 ++ pat ++ post := by
          have := List.cons.injEq c cs a (pre2 ++ pat ++ post) ▸ h
          simpa using this.2
        exact ⟨pre2, post, h2⟩

theorem explainScan_eq_fallback (table : List (String × String)) (low : String)
    (h : ∀ pe ∈ table, subOccurs pe.1.toList low.toList = false) :
    explainScan table low = ("No specific explanation available") := by
  induction table with
  | nil => rfl
  | cons pe rest ih =>
    obtain ⟨pat, expl⟩ := pe
    have h0 := h (pat, expl) (List.mem_cons_self _ _)
    simp only [explainScan, h0, Bool.false_eq_true, if_false]
    exact ih (fun q hq => h q (List.mem_cons_of_mem _ hq))

theorem explainScan_eq_of_first (table : List (String × String)) (low : String)
    (i : Fin table.length)
    (hi : subOccurs (table.get i).1.toList low.toList = true)
    (hj : ∀ j : Fin table.length, (j : Nat) < (i : Nat) →
      subOccurs (table.get j).1.toList low.toList = false) :
    explainScan table low = (table.get i).2 := by
  induction table with
  | nil => exact absurd i.isLt (by simp)
  | cons pe rest ih =>
    obtain ⟨pat, expl⟩ := pe
    obtain ⟨iv, hlt⟩ := i
    cases iv with
    | zero =>
      simp only [List.get] at hi ⊢
      simp only [String.toList] at hi
      simp [explainScan, hi]
    | succ k =>
      have h0 : subOccurs pat.toList low.toList = false := by
        have := hj ⟨0, by simp⟩ (by simp)
        simpa using this
      simp only [explainScan, h0, Bool.false_eq_true, if_false]
      have hk : k < rest.length := by
        have := Nat.lt_of_succ_lt_succ hlt
        simpa using this
      have hmain := ih ⟨k, hk⟩ (by simp only [List.get] at hi ⊢; exact hi)
        (fun j hjk => by
          have := hj ⟨j.val + 1, by simp only [List.length_cons]; exact Nat.succ_lt_succ j.isLt⟩
            (by simpa using Nat.succ_lt_succ hjk)
          simpa using this)
      simpa using hmain

/-- C2: `explain_error` lowercases its input and scans the fixed ordered rule
table in order; it returns the explanation of the first pattern occurring as
a substring of the lowercased input, and the fixed fallback string when no
pattern occurs; in particular on "Auth Expired for connection" it returns
"Reauthorization needed" and on "some unknown failure" it returns
"No specific explanation available". -/
theorem explain_error_first_match_spec :
    (∀ pat hay : List Char, subOccurs pat hay = true ↔ ∃ pre post, hay = pre ++ pat ++ post) ∧
    (∀ msg : String,
       (∀ pe ∈ ERROR_EXPLANATIONS, subOccurs pe.1.toList (strLower msg).toList = false) →
       explain_error msg = ("No specific explanation available")) ∧
    (∀ (msg : String) (i : Fin ERROR_EXPLANATIONS.length),
       subOccurs (ERROR_EXPLANATIONS.get i).1.toList (strLower msg).toList = true →
       (∀ j : Fin ERROR_EXPLANATIONS.length, (j : Nat) < (i : Nat) →
          subOccurs (ERROR_EXPLANATIONS.get j).1.toList (strLower msg).toList = false) →
       explain_error msg = (ERROR_EXPLANATIONS.get i).2) ∧
    explain_error ("Auth Expired for connection") = ("Reauthorization needed") ∧
    explain_error ("some unknown failure") = ("No specific explanation available") :=
  ⟨subOccurs_iff,
   fun _ h => explainScan_eq_fallback _ _ h,
   fun _ i hi hj => explainScan_eq_of_first _ _ i hi hj,
   by decide, by decide⟩

/-- Witness for C2 at concrete inputs. -/
theorem explain_error_first_match_spec_witness :
    explain_error ("xyz") = ("No specific explanation available") ∧
    explain_error ("Rate Limit hit") = ("API rate limit reached") :=
  ⟨explain_error_first_match_spec.2.1 ("xyz") (by decide),
   explain_error_first_match_spec.2.2.1 ("Rate Limit hit") ⟨3, by decide⟩ (by decide) (by decide)⟩

theorem rowKey_of_update (r : Row) (log_id : Nat) (s : String) :
    rowKey (if r.id == log_id then { r with status := s } else r) = rowKey r := by
  by_cases h : r.id == log_id <;> simp [h, rowKey]

theorem insert_keeps_distinct_keys (db : DB) (zap msg : String) (expl : Option String)
    (now : Nat)
    (h : db.error_logs.Pairwise (fun a b => rowKey a ≠ rowKey b)) :
    (insert_error_log db zap msg expl now).1.error_logs.Pairwise
      (fun a b => rowKey a ≠ rowKey b) := by
  unfold insert_error_log
  by_cases hc : db.error_logs.any
      (fun r => r.zap_name == zap && r.error_message == msg && r.timestamp == now)
  · simpa [hc] using h
  · rw [Bool.not_eq_true] at hc
    simp only [hc, Bool.false_eq_true, if_false]
    rw [List.pairwise_append]
    refine ⟨h, by simp, ?_⟩
    intro a ha b hb
    simp only [List.mem_singleton] at hb
    subst hb
    have hfalse := (List.any_eq_false.mp hc) a ha
    simp only [rowKey]
    intro hk
    simp only [Prod.mk.injEq] at hk
    obtain ⟨h1, h2, h3⟩ := hk
    simp [h1, h2, h3] at hfalse

theorem reachable_distinct_keys (db : DB) (h : Reachable db) :
    db.error_logs.Pairwise (fun a b => rowKey a ≠ rowKey b) := by
  induction h with
  | init => simp [init_db]
  | insert db zap msg expl now _ ih => exact insert_keeps_distinct_keys db zap msg expl now ih
  | update db log_id new_status db' b _ hok ih =>
    unfold update_log_status at hok
    by_cases hv : new_status ∈ valid_statuses
    · simp only [hv, if_true, Except.ok.injEq, Prod.mk.injEq] at hok
      obtain ⟨hdb, _⟩ := hok
      subst hdb
      exact ih.map _ (fun a b hab => by
        rw [rowKey_of_update, rowKey_of_update]
        exact hab)
    · simp [hv] at hok
  | clear db _ _ => simp [clear_all_logs]

theorem insert_error_log_of_dup (db : DB) (zap msg : String) (e : Option String) (now : Nat)
    (h : db.error_logs.any
      (fun r => r.zap_name == zap && r.error_message == msg && r.timestamp == now) = true) :
    insert_error_log db zap msg e now = (db, -1) := by
  simp only [insert_error_log, h]
  simp

theorem insert_twice_same_second (db : DB) (zap msg : String) (e1 e2 : Option String)
    (now : Nat) (h : (insert_error_log db zap msg e1 now).2 ≠ -1) :
    insert_error_log (insert_error_log db zap msg e1 now).1 zap msg e2 now
      = ((insert_error_log db zap msg e1 now).1, -1) ∧
    (insert_error_log db zap msg e1 now).1.error_logs.countP
      (fun r => r.zap_name == zap && r.error_message == msg && r.timestamp == now) = 1 := by
  by_cases hc : db.error_logs.any
      (fun r => r.zap_name == zap && r.error_message == msg && r.timestamp == now)
  · exact absurd (by simp [insert_error_log, hc]) h
  · rw [Bool.not_eq_true] at hc
    have hins : (insert_error_log db zap msg e1 now).1.error_logs
        = db.error_logs ++ [⟨db.next_id, zap, msg, e1, now, ("unresolved")⟩] := by
      simp [insert_error_log, hc]
    constructor
    · have hany : ((insert_error_log db zap msg e1 now).1.error_logs).any
          (fun r => r.zap_name == zap && r.error_message == msg && r.timestamp == now) = true := by
        rw [hins]
        simp
      exact insert_error_log_of_dup _ _ _ _ _ hany
    · rw [hins, List.countP_append]
      have h0 : db.error_logs.countP
          (fun r => r.zap_name == zap && r.error_message == msg && r.timestamp == now) = 0 :=
        List.countP_eq_zero.mpr (fun a ha => by
          have := List.any_eq_false.mp hc a ha
          simp only [this, Bool.false_eq_true, not_false_eq_true])
      simp [h0, List.countP_cons]

/-- C1: in every reachable store state the (zap_name, error_message,
timestamp) triples of the stored rows are pairwise distinct; and after a
successful insert, a second insert of the same (zap_name, error_message)
with the same server-assigned second-resolution timestamp returns the
duplicate signal -1, leaves the store unchanged, and exactly one row with
that triple is stored. -/
theorem dedup_unique_key_invariant :
    (∀ db : DB, Reachable db →
       db.error_logs.Pairwise (fun a b => rowKey a ≠ rowKey b)) ∧
    (∀ (db : DB) (zap msg : String) (e1 e2 : Option String) (now : Nat),
       (insert_error_log db zap msg e1 now).2 ≠ -1 →
       insert_error_log (insert_error_log db zap msg e1 now).1 zap msg e2 now
         = ((insert_error_log db zap msg e1 now).1, -1) ∧
       (insert_error_log db zap msg e1 now).1.error_logs.countP
         (fun r => r.zap_name == zap && r.error_message == msg && r.timestamp == now) = 1) :=
  ⟨reachable_distinct_keys, insert_twice_same_second⟩

/-- Witness for C1: a concrete double insert within the same second. -/
theorem dedup_unique_key_invariant_witness :
    init_db.error_logs.Pairwise (fun a b => rowKey a ≠ rowKey b) ∧
    (insert_error_log (insert_error_log init_db ("z") ("m") none 5).1 ("z") ("m") none 5
       = ((insert_error_log init_db ("z") ("m") none 5).1, -1) ∧
     (insert_error_log init_db ("z") ("m") none 5).1.error_logs.countP
       (fun r => r.zap_name == ("z") && r.error_message == ("m") && r.timestamp == 5) = 1) :=
  ⟨dedup_unique_key_invariant.1 init_db Reachable.init,
   dedup_unique_key_invariant.2 init_db ("z") ("m") none none 5 (by decide)⟩

/-- C4: `update_log_status` fails (raises ValueError) iff the new status is
not one of the three enum values; with a valid status it returns true iff a
row with the given id exists; and on the empty store,
update_log_status 9999 "resolved" returns false. -/
theorem update_log_status_validation :
    (∀ (db : DB) (log_id : Nat) (s : String),
       ((∃ e, update_log_status db log_id s = Except.error e) ↔ s ∉ valid_statuses) ∧
       (∀ (db' : DB) (b : Bool), update_log_status db log_id s = Except.ok (db', b) →
          (b = true ↔ ∃ r ∈ db.error_logs, r.id = log_id))) ∧
    update_log_status init_db 9999 ("resolved") = Except.ok (init_db, false) := by
  refine ⟨fun db log_id s => ?_, rfl⟩
  by_cases hv : s ∈ valid_statuses
  · refine ⟨by simp [update_log_status, hv], fun db' b hok => ?_⟩
    unfold update_log_status at hok
    rw [if_pos hv] at hok
    have hb : db.error_logs.any (fun r => r.id == log_id) = b :=
      congrArg Prod.snd (Except.ok.inj hok)
    rw [← hb]
    simp [List.any_eq_true]
  · refine ⟨by simp [update_log_status, hv], fun db' b hok => ?_⟩
    unfold update_log_status at hok
    rw [if_neg hv] at hok
    exact absurd hok (by simp)

/-- Witness for C4 on the empty store and id 9999. -/
theorem update_log_status_validation_witness :
    ((∃ e, update_log_status init_db 9999 ("resolved") = Except.error e) ↔
       ("resolved") ∉ valid_statuses) ∧
    (false = true ↔ ∃ r ∈ init_db.error_logs, r.id = 9999) :=
  ⟨(update_log_status_validation.1 init_db 9999 ("resolved")).1,
   (update_log_status_validation.1 init_db 9999 ("resolved")).2 init_db false rfl⟩

theorem update_row_fields (r : Row) (log_id : Nat) (s : String) :
    ((if r.id == log_id then { r with status := s } else r).id = r.id ∧
     (if r.id == log_id then { r with status := s } else r).zap_name = r.zap_name ∧
     (if r.id == log_id then { r with status := s } else r).error_message = r.error_message ∧
     (if r.id == log_id then { r with status := s } else r).explanation = r.explanation ∧
     (if r.id == log_id then { r with status := s } else r).timestamp = r.timestamp) ∧
    (r.id ≠ log_id → (if r.id == log_id then { r with status := s } else r) = r) := by
  by_cases h : r.id = log_id
  · exact ⟨by simp [h], fun hne => absurd h hne⟩
  · simp [h]

/-- C5: a successful `update_log_status` keeps the length of the table and
the id counter, keeps every field except status of the row at every
position, and leaves rows whose id differs entirely unchanged; and
`insert_error_log` only ever appends to the table, leaving every existing
row unchanged. -/
theorem update_log_status_frame :
    (∀ (db : DB) (log_id : Nat) (s : String) (db' : DB) (b : Bool),
       update_log_status db log_id s = Except.ok (db', b) →
       db'.error_logs.length = db.error_logs.length ∧
       db'.next_id = db.next_id ∧
       (∀ (i : Nat) (h1 : i < db.error_logs.length) (h2 : i < db'.error_logs.length),
         ((db'.error_logs.get ⟨i, h2⟩).id = (db.error_logs.get ⟨i, h1⟩).id ∧
          (db'.error_logs.get ⟨i, h2⟩).zap_name = (db.error_logs.get ⟨i, h1⟩).zap_name ∧
          (db'.error_logs.get ⟨i, h2⟩).error_message
            = (db.error_logs.get ⟨i, h1⟩).error_message ∧
          (db'.error_logs.get ⟨i, h2⟩).explanation = (db.error_logs.get ⟨i, h1⟩).explanation ∧
          (db'.error_logs.get ⟨i, h2⟩).timestamp = (db.error_logs.get ⟨i, h1⟩).timestamp) ∧
         ((db.error_logs.get ⟨i, h1⟩).id ≠ log_id →
            db'.error_logs.get ⟨i, h2⟩ = db.error_logs.get ⟨i, h1⟩))) ∧
    (∀ (db : DB) (zap msg : String) (e : Option String) (now : Nat),
       ∃ tail, (insert_error_log db zap msg e now).1.error_logs = db.error_logs ++ tail) := by
  constructor
  · intro db log_id s db' b hok
    unfold update_log_status at hok
    by_cases hv : s ∈ valid_statuses
    · rw [if_pos hv] at hok
      have hdb : (⟨db.error_logs.map
          (fun r => if r.id == log_id then { r with status := s } else r), db.next_id⟩ : DB)
            = db' :=
        congrArg Prod.fst (Except.ok.inj hok)
      subst hdb
      refine ⟨by simp, rfl, fun i h1 h2 => ?_⟩
      have hget : (DB.mk (db.error_logs.map
            (fun r => if r.id == log_id then { r with status := s } else r))
            db.next_id).error_logs.get ⟨i, h2⟩
          = (if (db.error_logs.get ⟨i, h1⟩).id == log_id
             then { db.error_logs.get ⟨i, h1⟩ with status := s }
             else db.error_logs.get ⟨i, h1⟩) := by
        simp [List.getElem_map]
      rw [hget]
      exact update_row_fields (db.error_logs.get ⟨i, h1⟩) log_id s
    · rw [if_neg hv] at hok
      exact absurd hok (by simp)
  · intro db zap msg e now
    unfold insert_error_log
    by_cases hc : db.error_logs.any
        (fun r => r.zap_name == zap && r.error_message == msg && r.timestamp == now)
    · exact ⟨[], by simp [hc]⟩
    · rw [Bool.not_eq_true] at hc
      exact ⟨[⟨db.next_id, zap, msg, e, now, ("unresolved")⟩], by simp [hc]⟩

/-- Witness for C5: updating the status of the single stored row keeps all
its other fields. -/
theorem update_log_status_frame_witness :
    ((⟨[⟨1, ("z"), ("m"), none, 5, ("resolved")⟩], 2⟩ : DB).error_logs.get
        ⟨0, by decide⟩).timestamp
      = ((⟨[⟨1, ("z"), ("m"), none, 5, ("unresolved")⟩], 2⟩ : DB).error_logs.get
        ⟨0, by decide⟩).timestamp :=
  (((update_log_status_frame.1 ⟨[⟨1, ("z"), ("m"), none, 5, ("unresolved")⟩], 2⟩ 1 ("resolved")
      ⟨[⟨1, ("z"), ("m"), none, 5, ("resolved")⟩], 2⟩ true rfl).2.2 0 (by decide)
      (by decide)).1).2.2.2.2

/-- C6: `get_all_logs` returns at most `limit` rows, sorted newest-first by
timestamp; it returns exactly `limit` rows when the store holds more; and
the returned rows together with the dropped rest are a permutation of the
store in which every dropped row is at most as new as every returned row. -/
theorem get_all_logs_newest_first (db : DB) (limit : Nat) :
    (get_all_logs db limit).length ≤ limit ∧
    List.Sorted tsGE (get_all_logs db limit) ∧
    (limit < db.error_logs.length → (get_all_logs db limit).length = limit) ∧
    ∃ rest, (get_all_logs db limit ++ rest).Perm db.error_logs ∧
      ∀ r ∈ get_all_logs db limit, ∀ d ∈ rest, d.timestamp ≤ r.timestamp := by
  have hperm := List.perm_insertionSort tsGE db.error_logs
  have hsorted := List.sorted_insertionSort tsGE db.error_logs
  have hlen : (List.insertionSort tsGE db.error_logs).length = db.error_logs.length :=
    hperm.length_eq
  refine ⟨?_, ?_, ?_, ?_⟩
  · rw [get_all_logs, List.length_take]
    exact Nat.min_le_left _ _
  · exact List.Pairwise.sublist (List.take_sublist _ _) hsorted
  · intro hlt
    rw [get_all_logs, List.length_take, hlen]
    exact Nat.min_eq_left (Nat.le_of_lt hlt)
  · refine ⟨(List.insertionSort tsGE db.error_logs).drop limit, ?_, ?_⟩
    · rw [get_all_logs, List.take_append_drop]
      exact hperm
    · intro r hr d hd
      have hsplit : List.Sorted tsGE
          (get_all_logs db limit ++ (List.insertionSort tsGE db.error_logs).drop limit) := by
        rw [get_all_logs, List.take_append_drop]
        exact hsorted
      exact (List.pairwise_append.mp hsplit).2.2 r hr d hd

/-- Witness for C6: with two stored rows and limit 1, exactly one (the
newest) row is returned. -/
theorem get_all_logs_newest_first_witness :
    (get_all_logs ⟨[⟨1, ("a"), ("m"), none, 3, ("unresolved")⟩,
                    ⟨2, ("b"), ("n"), none, 7, ("unresolved")⟩], 3⟩ 1).length = 1 :=
  (get_all_logs_newest_first ⟨[⟨1, ("a"), ("m"), none, 3, ("unresolved")⟩,
      ⟨2, ("b"), ("n"), none, 7, ("unresolved")⟩], 3⟩ 1).2.2.1 (by decide)

/-- C7: `clear_all_logs` returns the number of rows stored before the call,
and a `get_all_logs` right after it returns the empty sequence. -/
theorem clear_all_logs_spec (db : DB) :
    (clear_all_logs db).2 = db.error_logs.length ∧
    get_all_logs (clear_all_logs db).1 1000 = [] ∧
    (clear_all_logs db).1.error_logs = [] :=
  ⟨rfl, rfl, rfl⟩

/-- C3 (code bug evidence): a POST /api/zapier_payload request missing
zap_name responds with HTTP 500, not 400 — the explicit
HTTPException(400, "Missing zap_name or error_message") is intercepted by
the handler's own `except Exception` clause and re-raised as a 500 — while
the store is left unchanged. -/
theorem receive_zapier_payload_missing_field_gives_500 :
    (receive_zapier_payload init_db ⟨none, some ("boom"), none⟩ 0).2
      = ApiResp.httpError 500 ("400: Missing zap_name or error_message") ∧
    (receive_zapier_payload init_db ⟨none, some ("boom"), none⟩ 0).2.statusCode = 500 ∧
    (receive_zapier_payload init_db ⟨none, some ("boom"), none⟩ 0).2.statusCode ≠ 400 ∧
    (receive_zapier_payload init_db ⟨none, some ("boom"), none⟩ 0).1 = init_db ∧
    (receive_zapier_payload init_db ⟨some (""), some ("boom"), none⟩ 0).2.statusCode = 500 ∧
    (receive_zapier_payload init_db ⟨some ("z"), none, none⟩ 0).2.statusCode = 500 := by
  decide

/-- C8 (counterexample): POST /api/errors accepts the empty string in both
zap_name and error_message and stores a record with empty fields. -/
theorem create_error_log_stores_empty_fields :
    ∃ r ∈ ((create_error_log init_db ⟨(""), (""), none⟩ 0).1).error_logs,
      r.zap_name = ("") ∧ r.error_message = ("") := by
  decide

/-- C8 (amended): every record stored by POST /api/zapier_payload has
non-empty zap_name and error_message (the falsiness check rejects empty
fields before any insert); POST /api/errors performs no such check. -/
theorem receive_zapier_payload_nonempty_fields :
    ∀ (db : DB) (p : ZapierPayload) (now : Nat) (r : Row),
      r ∈ ((receive_zapier_payload db p now).1).error_logs →
      r ∈ db.error_logs ∨ (r.zap_name ≠ ("") ∧ r.error_message ≠ ("")) := by
  intro db p now r hr
  unfold receive_zapier_payload at hr
  by_cases hf : (falsyStr p.zap_name || falsyStr p.error_message) = true
  · rw [if_pos hf] at hr
    exact Or.inl hr
  · rw [if_neg hf] at hr
    simp only [Bool.or_eq_true, not_or] at hf
    obtain ⟨hz, hm⟩ := hf
    obtain ⟨zs, hzs⟩ : ∃ zs, p.zap_name = some zs := by
      cases hzap : p.zap_name with
      | none => exact absurd (by simp [falsyStr, hzap]) hz
      | some zs => exact ⟨zs, rfl⟩
    obtain ⟨ms, hms⟩ : ∃ ms, p.error_message = some ms := by
      cases hmsg : p.error_message with
      | none => exact absurd (by simp [falsyStr, hmsg]) hm
      | some ms => exact ⟨ms, rfl⟩
    have hzs' : zs ≠ ("") := by
      intro he
      exact hz (by simp [falsyStr, hzs, he])
    have hms' : ms ≠ ("") := by
      intro he
      exact hm (by simp [falsyStr, hms, he])
    rw [hzs, hms] at hr
    simp only [Option.getD_some] at hr
    unfold insert_error_log at hr
    by_cases hc : db.error_logs.any
        (fun q => q.zap_name == zs && q.error_message == ms && q.timestamp == now)
    · rw [if_pos hc] at hr
      by_cases hd : ((db, (-1 : Int)).2 = -1)
      · rw [if_pos hd] at hr
        exact Or.inl hr
      · rw [if_neg hd] at hr
        exact Or.inl hr
    · rw [if_neg hc] at hr
      by_cases hd : ((⟨db.error_logs ++ [⟨db.next_id, zs, ms,
          some (explain_error ms), now, ("unresolved")⟩], db.next_id + 1⟩ : DB),
            (db.next_id : Int)).2 = -1
      · rw [if_pos hd] at hr
        rcases List.mem_append.mp hr with hold | hnew
        · exact Or.inl hold
        · simp only [List.mem_singleton] at hnew
          subst hnew
          exact Or.inr ⟨hzs', hms'⟩
      · rw [if_neg hd] at hr
        rcases List.mem_append.mp hr with hold | hnew
        · exact Or.inl hold
        · simp only [List.mem_singleton] at hnew
          subst hnew
          exact Or.inr ⟨hzs', hms'⟩

/-- Witness for the amended C8 at a concrete request. -/
theorem receive_zapier_payload_nonempty_fields_witness :
    (⟨1, ("z"), ("m"), some ("No specific explanation available"), 0, ("unresolved")⟩ : Row)
        ∈ init_db.error_logs ∨
      ((("z") : String) ≠ ("") ∧ (("m") : String) ≠ ("")) :=
  receive_zapier_payload_nonempty_fields init_db ⟨some ("z"), some ("m"), none⟩ 0
    ⟨1, ("z"), ("m"), some ("No specific explanation available"), 0, ("unresolved")⟩
    (by decide)

/-- C9: when the (optionally status-filtered) result set is empty, the
exported CSV is a single empty header row "\r\n" — no schema-derived
column names. -/
theorem export_logs_empty_header (db : DB) (s : String) :
    (get_all_logs db 1000 = [] → export_logs db none = ("\r\n")) ∧
    (get_logs_by_status db s = [] → export_logs db (some s) = ("\r\n")) := by
  constructor
  · intro h
    show renderCsv (get_all_logs db 1000) = ("\r\n")
    rw [h]
    decide
  · intro h
    show renderCsv (get_logs_by_status db s) = ("\r\n")
    rw [h]
    decide

/-- Witness for C9 on the empty store, unfiltered and filtered. -/
theorem export_logs_empty_header_witness :
    export_logs init_db none = ("\r\n") ∧
    export_logs init_db (some ("resolved")) = ("\r\n") :=
  ⟨(export_logs_empty_header init_db ("resolved")).1 (by decide),
   (export_logs_empty_header init_db ("resolved")).2 (by decide)⟩

theorem insert_error_log_mem (db : DB) (zap msg : String) (e : Option String) (now : Nat)
    (r : Row) (hr : r ∈ (insert_error_log db zap msg e now).1.error_logs) :
    r ∈ db.error_logs ∨ r = ⟨db.next_id, zap, msg, e, now, ("unresolved")⟩ := by
  unfold insert_error_log at hr
  by_cases hc : db.error_logs.any
      (fun q => q.zap_name == zap && q.error_message == msg && q.timestamp == now)
  · rw [if_pos hc] at hr
    exact Or.inl hr
  · rw [if_neg hc] at hr
    rcases List.mem_append.mp hr with hold | hnew
    · exact Or.inl hold
    · simp only [List.mem_singleton] at hnew
      exact Or.inr hnew

theorem receive_zapier_payload_state (db : DB) (p : ZapierPayload) (now : Nat) :
    (receive_zapier_payload db p now).1 = db ∨
    (receive_zapier_payload db p now).1
      = (insert_error_log db (p.zap_name.getD ("")) (p.error_message.getD (""))
          (some (explain_error (p.error_message.getD ("")))) now).1 := by
  unfold receive_zapier_payload
  by_cases hf : (falsyStr p.zap_name || falsyStr p.error_message) = true
  · rw [if_pos hf]
    exact Or.inl rfl
  · rw [if_neg hf]
    right
    by_cases hd : (insert_error_log db (p.zap_name.getD ("")) (p.error_message.getD (""))
        (some (explain_error (p.error_message.getD ("")))) now).2 = -1
    · rw [if_pos hd]
    · rw [if_neg hd]

/-- C10: the optional timestamp of the POST /api/zapier_payload body is
ignored — two payloads differing only in it give identical results — and
every row the endpoint stores carries the server-assigned insertion time. -/
theorem zapier_payload_timestamp_ignored :
    (∀ (db : DB) (z m t1 t2 : Option String) (now : Nat),
       receive_zapier_payload db ⟨z, m, t1⟩ now = receive_zapier_payload db ⟨z, m, t2⟩ now) ∧
    (∀ (db : DB) (p : ZapierPayload) (now : Nat) (r : Row),
       r ∈ ((receive_zapier_payload db p now).1).error_logs →
       r ∈ db.error_logs ∨ r.timestamp = now) := by
  constructor
  · intro db z m t1 t2 now
    rfl
  · intro db p now r hr
    rcases receive_zapier_payload_state db p now with hs | hs
    · rw [hs] at hr
      exact Or.inl hr
    · rw [hs] at hr
      rcases insert_error_log_mem db (p.zap_name.getD ("")) (p.error_message.getD (""))
          (some (explain_error (p.error_message.getD ("")))) now r hr with hold | hnew
      · exact Or.inl hold
      · subst hnew
        exact Or.inr rfl

/-- Witness for C10: the stored row of a concrete request carries the
server time. -/
theorem zapier_payload_timestamp_ignored_witness :
    (⟨1, ("z"), ("m"), some ("No specific explanation available"), 7, ("unresolved")⟩ : Row)
        ∈ init_db.error_logs ∨
      (⟨1, ("z"), ("m"), some ("No specific explanation available"), 7,
        ("unresolved")⟩ : Row).timestamp = 7 :=
  zapier_payload_timestamp_ignored.2 init_db ⟨some ("z"), some ("m"), some ("2020-01-01")⟩ 7
    ⟨1, ("z"), ("m"), some ("No specific explanation available"), 7, ("unresolved")⟩
    (by decide)
